import Mathlib

/-!
Verification development for the transaction ingestion-and-analytics engine
of the AI-financial-PDF-Extraction repository.

The embedding models, from the JavaScript source:
  * the Mongoose `Transaction` model (models/Transaction.js): record schema,
    `isDuplicate`, `getUserStats`;
  * `DatabaseService` (services/databaseService.js): `insertTransaction`,
    `insertTransactions`, `getTransactionsByUser`, `getTransactionsByMonth`,
    `getTransactionsByCategory`, `getSummary`.

The persistent MongoDB collection is modelled as a `List Transaction` in
insertion order.  Amounts are rationals (the spec demands decimal-safe
accumulation).  Dates are a broken-down civil time structure ordered by a
lexicographic key, which is faithful for the comparisons the code performs.
-/

/-- Civil date-time with millisecond precision, modelling a JS `Date` value in
local time as the code constructs and compares them.  `month` is the 1-based
calendar month of the normalized date. -/
structure JSDate where
  year : Int
  month : Nat
  day : Nat
  hour : Nat
  minute : Nat
  second : Nat
  ms : Nat
deriving DecidableEq, Repr

/-- Leap-year rule of the Gregorian calendar, as implemented by JS `Date`. -/
def isLeapYear (y : Int) : Bool :=
  y % 4 == 0 && (y % 100 != 0 || y % 400 == 0)

/-- Number of days of calendar month `m` (1-based) of year `y`. -/
def daysInMonth (y : Int) (m : Nat) : Nat :=
  if m = 2 then (if isLeapYear y then 29 else 28)
  else if m = 4 ∨ m = 6 ∨ m = 9 ∨ m = 11 then 30
  else 31

/-- Order-embedding key for normalized `JSDate` values: each component is
smaller than the radix of the next, so comparing keys is the lexicographic
comparison JS `Date` ordering performs. -/
def dateKey (d : JSDate) : Int :=
  (((((d.year * 13 + (d.month : Int)) * 32 + (d.day : Int)) * 24
    + (d.hour : Int)) * 60 + (d.minute : Int)) * 60
    + (d.second : Int)) * 1000 + (d.ms : Int)

/-- Model of the JS `new Date(year, monthIndex, day, h, min, s, ms)`
constructor for the argument shapes the code uses: `monthIndex` between 0 and
12 and `day` either 0 (which JS normalizes to the last day of the previous
month) or a day inside the month.  `monthIndex` is 0-based as in JS. -/
def jsNewDate (y monthIdx day : Int) (h mi s ms : Nat) : JSDate :=
  let y1 := y + Int.ediv monthIdx 12
  let m0 := (Int.emod monthIdx 12).toNat
  if day = 0 then
    if m0 = 0 then ⟨y1 - 1, 12, daysInMonth (y1 - 1) 12, h, mi, s, ms⟩
    else ⟨y1, m0, daysInMonth y1 m0, h, mi, s, ms⟩
  else ⟨y1, m0 + 1, day.toNat, h, mi, s, ms⟩

/-- The `type` field of the schema: `enum: ['Credit', 'Debit']`. -/
inductive TxType where
  | Credit
  | Debit
deriving DecidableEq, Repr

/-- String value stored by Mongo for a `TxType`, used when the query compares
the `type` filter (a string) against the stored field. -/
def TxType.str : TxType → String
  | .Credit => "Credit"
  | .Debit => "Debit"

/-- Transaction record, after the Mongoose schema of models/Transaction.js.
The source field `type` is called `txType` here because `type` is a Lean
keyword; `raw_line` is `rawLine`. -/
structure Transaction where
  id : String
  userId : String
  date : JSDate
  description : String
  amount : ℚ
  txType : TxType
  category : String
  balance : Option ℚ := none
  rawLine : Option String := none
deriving DecidableEq, Repr

/-- A JS value arriving in a query-option field that the code feeds to
`parseInt`: either a number or a string. -/
inductive JSVal where
  | num (q : ℚ)
  | str (s : String)
deriving DecidableEq, Repr

/-- Numeric value of a run of decimal digits. -/
def digitsVal (cs : List Char) : Option Nat :=
  let ds := cs.takeWhile (fun c => c.isDigit)
  if ds = [] then none
  else some (ds.foldl (fun a c => a * 10 + (c.toNat - '0'.toNat)) 0)

/-- Model of JS `parseInt` on a string, radix 10: skip leading whitespace,
optional sign, then the longest digit run; `none` models `NaN` when no digit
is consumed.  (The `0x` radix prefix of JS is not exercised by this code.) -/
def strToInt (s : String) : Option Int :=
  let cs := s.toList.dropWhile (fun c => decide (c = ' ' ∨ c = '\t' ∨ c = '\n'))
  match cs with
  | '-' :: rest => (digitsVal rest).map (fun n => -(n : Int))
  | '+' :: rest => (digitsVal rest).map (fun n => (n : Int))
  | rest => (digitsVal rest).map (fun n => (n : Int))

/-- Truncation toward zero, as JS `parseInt` acts on a number whose decimal
rendering is in the normal (non-exponent) range. -/
def ratTrunc (q : ℚ) : Int :=
  if q < 0 then -(Rat.floor (-q)) else Rat.floor q

/-- Model of JS `parseInt` on the option values the code passes it; `none`
models `NaN`. -/
def jsParseInt : JSVal → Option Int
  | .num q => some (ratTrunc q)
  | .str s => strToInt s

/-- Model of the JS `x || d` default idiom applied to a `parseInt` result:
`NaN` (here `none`) and `0` are falsy and replaced by the default. -/
def jsOr (v : Option Int) (d : Int) : Int :=
  match v with
  | some n => if n = 0 then d else n
  | none => d

/-- Options object accepted by `getTransactionsByUser`.  `minAmount` and
`maxAmount` carry numeric JS values; `limit` and `skip` carry raw JS values
that the code funnels through `parseInt`; `sort` is a comparison as consumed
by the store's sort. -/
structure QueryOptions where
  startDate : Option JSDate := none
  endDate : Option JSDate := none
  category : Option String := none
  txType : Option String := none
  minAmount : Option ℚ := none
  maxAmount : Option ℚ := none
  limit : Option JSVal := none
  skip : Option JSVal := none
  sort : Option (Transaction → Transaction → Bool) := none

/-- JS truthiness of an optional string (absent and the empty string are
falsy). -/
def truthyStr (o : Option String) : Bool :=
  match o with
  | some s => decide (s ≠ "")
  | none => false

/-- JS truthiness of an optional number (absent and 0 are falsy). -/
def truthyNum (o : Option ℚ) : Bool :=
  match o with
  | some q => decide (q ≠ 0)
  | none => false

/-- The Mongo query document built by `getTransactionsByUser`: the constant
`userId` clause plus the optional range and equality clauses. -/
structure TxQuery where
  userId : String
  dateGte : Option JSDate := none
  dateLte : Option JSDate := none
  category : Option String := none
  txType : Option String := none
  amountGte : Option ℚ := none
  amountLte : Option ℚ := none
deriving DecidableEq, Repr

/-- Query construction of `getTransactionsByUser` (services/databaseService.js):
`userId` always, then each filter clause guarded by JS truthiness of the
corresponding option, with `parseFloat` on the amount bounds (identity on the
numeric values modelled here). -/
def buildQuery (userId : String) (o : QueryOptions) : TxQuery :=
  { userId := userId
    dateGte := o.startDate
    dateLte := o.endDate
    category := if truthyStr o.category then o.category else none
    txType := if truthyStr o.txType then o.txType else none
    amountGte := if truthyNum o.minAmount then o.minAmount else none
    amountLte := if truthyNum o.maxAmount then o.maxAmount else none }

/-- Store-side matching of one record against a query document: the conjunction
of the clauses present, as MongoDB evaluates the query. -/
def txMatches (q : TxQuery) (t : Transaction) : Bool :=
  decide (t.userId = q.userId)
  && (match q.dateGte with
      | some d => decide (dateKey d ≤ dateKey t.date)
      | none => true)
  && (match q.dateLte with
      | some d => decide (dateKey t.date ≤ dateKey d)
      | none => true)
  && (match q.category with
      | some c => decide (t.category = c)
      | none => true)
  && (match q.txType with
      | some ty => decide (t.txType.str = ty)
      | none => true)
  && (match q.amountGte with
      | some m => decide (m ≤ t.amount)
      | none => true)
  && (match q.amountLte with
      | some m => decide (t.amount ≤ m)
      | none => true)

/-- Effective page size: `parseInt(options.limit) || 100`. -/
def effLimit (o : QueryOptions) : Int :=
  jsOr (o.limit.bind jsParseInt) 100

/-- Effective offset: `parseInt(options.skip) || 0`. -/
def effSkip (o : QueryOptions) : Int :=
  jsOr (o.skip.bind jsParseInt) 0

/-- Default sort `\x7b date: -1 \x7d`: date descending. -/
def byDateDesc (a b : Transaction) : Bool :=
  decide (dateKey b.date ≤ dateKey a.date)

/-- Stable sort on a boolean comparison, modelling the store's `.sort()`. -/
def sortTxs (le : Transaction → Transaction → Bool) (l : List Transaction) :
    List Transaction :=
  List.insertionSort (fun a b => le a b = true) l

/-- The `pagination` object of a query result. -/
structure Pagination where
  total : Nat
  limit : Int
  skip : Int
  hasMore : Bool
deriving DecidableEq, Repr

/-- A successful query result: the page plus its pagination data. -/
structure PageResult where
  data : List Transaction
  pagination : Pagination
deriving DecidableEq, Repr

/-- `DatabaseService.getTransactionsByUser`: build the query, apply the sort
and pagination defaults, return the page (sorted matches with `skip` dropped
and `limit` taken — Mongo applies skip before limit) together with the total
count of the same query. -/
def getTransactionsByUser (store : List Transaction) (userId : String)
    (o : QueryOptions) : PageResult :=
  let query := buildQuery userId o
  let limit := effLimit o
  let skip := effSkip o
  let srt := o.sort.getD byDateDesc
  let matched := store.filter (fun t => txMatches query t)
  let txs := ((sortTxs srt matched).drop skip.toNat).take limit.toNat
  let total := matched.length
  { data := txs
    pagination :=
      { total := total
        limit := limit
        skip := skip
        hasMore := decide (skip + (txs.length : Int) < (total : Int)) } }

/-- `DatabaseService.getTransactionsByMonth`: derives the month's date range
with the JS `Date` constructor — `new Date(year, month - 1, 1)` and
`new Date(year, month, 0, 23, 59, 59, 999)` — and delegates to
`getTransactionsByUser`. -/
def getTransactionsByMonth (store : List Transaction) (userId : String)
    (year month : Int) : PageResult :=
  getTransactionsByUser store userId
    { startDate := some (jsNewDate year (month - 1) 1 0 0 0 0)
      endDate := some (jsNewDate year month 0 23 59 59 999) }

/-- `DatabaseService.getTransactionsByCategory`: delegates to
`getTransactionsByUser` with the category spliced into the options. -/
def getTransactionsByCategory (store : List Transaction) (userId : String)
    (category : String) (o : QueryOptions) : PageResult :=
  getTransactionsByUser store userId { o with category := some category }

/-- Whether some stored record already carries id `i`:
`Transaction.isDuplicate` of models/Transaction.js
(`findOne` on the `id` field, coerced to a boolean). -/
def isDuplicate (store : List Transaction) (i : String) : Bool :=
  store.any (fun r => decide (r.id = i))

/-- Result object of `insertTransaction`: `success`, the optional `duplicate`
flag, and the saved record under `data` on success. -/
structure InsertResult where
  success : Bool
  duplicate : Bool
  data : Option Transaction
deriving DecidableEq, Repr

/-- `DatabaseService.insertTransaction`: check `isDuplicate`; if present,
report a duplicate without touching the store; otherwise attempt
`transaction.save()`.  The store is external, so `save` failing (a storage or
validation error, caught by the source's try/catch and reported as a plain
failure) is modelled by the oracle `fail`; on success the record is appended. -/
def insertTransaction (fail : Transaction → Bool) (store : List Transaction)
    (t : Transaction) : InsertResult × List Transaction :=
  if isDuplicate store t.id then
    (⟨false, true, none⟩, store)
  else if fail t then
    (⟨false, false, none⟩, store)
  else
    (⟨true, false, some t⟩, store ++ [t])

/-- Accumulated counters of `insertTransactions`. -/
structure BatchResult where
  inserted : Nat
  duplicates : Nat
  errors : Nat
  transactions : List Transaction
deriving DecidableEq, Repr

/-- `DatabaseService.insertTransactions`: process the records sequentially in
input order, calling `insertTransaction` for each; a success increments
`inserted` and pushes the saved record, a duplicate increments `duplicates`,
any other failure increments `errors`. -/
def insertTransactions (fail : Transaction → Bool) (store : List Transaction) :
    List Transaction → BatchResult × List Transaction
  | [] => (⟨0, 0, 0, []⟩, store)
  | t :: ts =>
    let step := insertTransaction fail store t
    let rest := insertTransactions fail step.2 ts
    if step.1.success then
      ({ rest.1 with
          inserted := rest.1.inserted + 1
          transactions := step.1.data.toList ++ rest.1.transactions }, rest.2)
    else if step.1.duplicate then
      ({ rest.1 with duplicates := rest.1.duplicates + 1 }, rest.2)
    else
      ({ rest.1 with errors := rest.1.errors + 1 }, rest.2)

/-- The `$match` document both stages of `getSummary` and `getUserStats`
build: `userId` plus the optional date range. -/
def summaryQuery (userId : String) (sd ed : Option JSDate) : TxQuery :=
  { userId := userId, dateGte := sd, dateLte := ed }

/-- Rows of the `$group` by `$type` stage of `getUserStats`: for each type
value occurring among the matched records, the sum of `amount` and the record
count in that group. -/
def typeRows (l : List Transaction) : List (TxType × ℚ × Nat) :=
  ((l.map (fun t => t.txType)).dedup).map (fun ty =>
    (ty, ((l.filter (fun t => decide (t.txType = ty))).map
            (fun t => t.amount)).sum,
     (l.filter (fun t => decide (t.txType = ty))).length))

/-- The overview object assembled by `getUserStats`. -/
structure Overview where
  totalCredit : ℚ
  totalDebit : ℚ
  creditCount : Nat
  debitCount : Nat
  netAmount : ℚ
deriving DecidableEq, Repr

/-- The `stats.forEach` loop of `getUserStats`: each group row fills the
credit or debit slots of the accumulating result. -/
def statsAccum (acc : Overview) : List (TxType × ℚ × Nat) → Overview
  | [] => acc
  | (ty, total, cnt) :: rest =>
    statsAccum
      (if ty = TxType.Credit then
        { acc with totalCredit := total, creditCount := cnt }
      else
        { acc with totalDebit := total, debitCount := cnt }) rest

/-- Overview from the type-group rows: zero-initialised result, the
`forEach` fill, then `netAmount = totalCredit - totalDebit`. -/
def overviewOfRows (rows : List (TxType × ℚ × Nat)) : Overview :=
  let r := statsAccum ⟨0, 0, 0, 0, 0⟩ rows
  { r with netAmount := r.totalCredit - r.totalDebit }

/-- `Transaction.getUserStats` of models/Transaction.js: aggregate the
matched records grouped by `$type`, then fan the group rows into the named
overview fields. -/
def getUserStats (store : List Transaction) (userId : String)
    (sd ed : Option JSDate) : Overview :=
  overviewOfRows (typeRows
    (store.filter (fun t => txMatches (summaryQuery userId sd ed) t)))

/-- A row of the first `$group` stage of the category pipeline in
`getSummary`: key `(category, type)` with `total` and `count`. -/
structure CatTypeRow where
  category : String
  txType : TxType
  total : ℚ
  count : Nat
deriving DecidableEq, Repr

/-- First `$group` stage of the category pipeline: one row per distinct
`(category, type)` pair among the matched records. -/
def catTypeStage (l : List Transaction) : List CatTypeRow :=
  ((l.map (fun t => (t.category, t.txType))).dedup).map (fun k =>
    { category := k.1
      txType := k.2
      total := ((l.filter (fun t =>
          decide ((t.category, t.txType) = k))).map (fun t => t.amount)).sum
      count := (l.filter (fun t =>
          decide ((t.category, t.txType) = k))).length })

/-- A row of the category breakdown returned by `getSummary`. -/
structure CategoryRow where
  category : String
  debit : ℚ
  credit : ℚ
  count : Nat
deriving DecidableEq, Repr

/-- Second `$group` stage: regroup the `(category, type)` rows by category,
with the `$cond` sums fanning the per-type totals into `debit` and `credit`
and the counts added up. -/
def catStage (rows : List CatTypeRow) : List CategoryRow :=
  ((rows.map (fun r => r.category)).dedup).map (fun c =>
    { category := c
      debit := ((rows.filter (fun r => decide (r.category = c))).map
          (fun r => if r.txType = TxType.Debit then r.total else 0)).sum
      credit := ((rows.filter (fun r => decide (r.category = c))).map
          (fun r => if r.txType = TxType.Credit then r.total else 0)).sum
      count := ((rows.filter (fun r => decide (r.category = c))).map
          (fun r => r.count)).sum })

/-- Full category pipeline of `getSummary`: the two `$group` stages followed
by `$sort` on `debit` descending. -/
def categoryBreakdown (l : List Transaction) : List CategoryRow :=
  List.insertionSort (fun a b => b.debit ≤ a.debit) (catStage (catTypeStage l))

/-- The `data` object returned by `DatabaseService.getSummary`. -/
structure Summary where
  overview : Overview
  categories : List CategoryRow
deriving DecidableEq, Repr

/-- `DatabaseService.getSummary`: the `getUserStats` overview together with
the category breakdown, both over the same `userId` plus date-range match. -/
def getSummary (store : List Transaction) (userId : String)
    (sd ed : Option JSDate) : Summary :=
  { overview := getUserStats store userId sd ed
    categories := categoryBreakdown
      (store.filter (fun t => txMatches (summaryQuery userId sd ed) t)) }

/-- First instant of calendar month `m` (1-based) of year `y`.  Modelled from
the spec's words for the derived month range ("startDate = first instant of
the given year/month"), for comparison with the code's `jsNewDate` dates. -/
def firstInstant (y m : Int) : JSDate := ⟨y, m.toNat, 1, 0, 0, 0, 0⟩

/-- Last instant (23:59:59.999 of the last day) of calendar month `m` of year
`y`.  Modelled from the spec's words ("endDate = last instant of that
month"), for comparison with the code's `jsNewDate` dates. -/
def lastInstant (y m : Int) : JSDate :=
  ⟨y, m.toNat, daysInMonth y m.toNat, 23, 59, 59, 999⟩

/-- Concrete fixtures used by the witness theorems. -/
def demoDate1 : JSDate := ⟨2024, 10, 5, 0, 0, 0, 0⟩

def demoDate2 : JSDate := ⟨2024, 10, 20, 0, 0, 0, 0⟩

def demoTxA : Transaction :=
  { id := "a", userId := "u1", date := demoDate1, description := "coffee"
    amount := 100, txType := TxType.Debit, category := "Food" }

def demoTxB : Transaction :=
  { id := "b", userId := "u1", date := demoDate2, description := "salary"
    amount := 500, txType := TxType.Credit, category := "Salary" }

def demoTxC : Transaction :=
  { id := "c", userId := "u1", date := demoDate1, description := "snack"
    amount := 50, txType := TxType.Debit, category := "Food" }

/-- A second record carrying the same id as `demoTxA`. -/
def demoTxDup : Transaction :=
  { id := "a", userId := "u1", date := demoDate2, description := "again"
    amount := 999, txType := TxType.Credit, category := "Other" }

/-- Storage oracle of a store that accepts every write. -/
def noFailure : Transaction → Bool := fun _ => false

/-- Storage oracle of a store that rejects exactly the record with id b. -/
def demoFailOnB : Transaction → Bool := fun t => decide (t.id = "b")

theorem sum_map_zero_fun {κ : Type} (K : List κ) :
    (K.map (fun _ => (0 : ℚ))).sum = 0 := by
  induction K with
  | nil => rfl
  | cons a K ih => simp [ih]

theorem sum_map_add_fun {κ : Type} (K : List κ) (g h : κ → ℚ) :
    (K.map (fun k => g k + h k)).sum = (K.map g).sum + (K.map h).sum := by
  induction K with
  | nil => simp
  | cons a K ih => simp [ih]; ring

theorem sum_map_ite_zero {κ : Type} [DecidableEq κ] (K : List κ) (k0 : κ)
    (c : ℚ) (h : k0 ∉ K) :
    (K.map (fun k => if k0 = k then c else 0)).sum = 0 := by
  induction K with
  | nil => rfl
  | cons a K ih =>
    have ha : k0 ≠ a := fun e => h (by simp [e])
    simp [ha, ih (fun hm => h (by simp [hm]))]

theorem sum_map_ite_eq {κ : Type} [DecidableEq κ] (K : List κ) (k0 : κ)
    (c : ℚ) (hnd : K.Nodup) (hmem : k0 ∈ K) :
    (K.map (fun k => if k0 = k then c else 0)).sum = c := by
  induction K with
  | nil => cases hmem
  | cons a K ih =>
    rcases List.mem_cons.mp hmem with h | h
    · subst h
      have : k0 ∉ K := (List.nodup_cons.mp hnd).1
      simp [sum_map_ite_zero K k0 c this]
    · have ha : k0 ≠ a := by
        rintro rfl; exact (List.nodup_cons.mp hnd).1 h
      simp [ha, ih (List.nodup_cons.mp hnd).2 h]

theorem sum_fiberwise {α κ : Type} [DecidableEq κ] (key : α → κ) (f : α → ℚ) :
    ∀ (l : List α) (K : List κ), K.Nodup → (∀ a ∈ l, key a ∈ K) →
      (K.map (fun k =>
        ((l.filter (fun a => decide (key a = k))).map f).sum)).sum
        = (l.map f).sum
  | [], K, _, _ => by
    simp
  | a :: l, K, hnd, hcov => by
    have hstep : ∀ k ∈ K,
        (((a :: l).filter (fun x => decide (key x = k))).map f).sum
          = (if key a = k then f a else 0)
            + ((l.filter (fun x => decide (key x = k))).map f).sum := by
      intro k _
      by_cases h : key a = k
      · simp [List.filter_cons, h]
      · simp [List.filter_cons, h]
    rw [List.map_congr_left hstep, sum_map_add_fun,
      sum_map_ite_eq K (key a) (f a) hnd (hcov a (by simp)),
      sum_fiberwise key f l K hnd (fun x hx => hcov x (by simp [hx]))]
    simp

theorem isDuplicate_iff (store : List Transaction) (i : String) :
    isDuplicate store i = true ↔ ∃ r ∈ store, r.id = i := by
  simp [isDuplicate, List.any_eq_true]

theorem insertTransaction_dup (fail : Transaction → Bool)
    (store : List Transaction) (t : Transaction)
    (h : isDuplicate store t.id = true) :
    insertTransaction fail store t = (⟨false, true, none⟩, store) := by
  simp [insertTransaction, h]

theorem insertTransaction_err (fail : Transaction → Bool)
    (store : List Transaction) (t : Transaction)
    (h1 : isDuplicate store t.id = false) (h2 : fail t = true) :
    insertTransaction fail store t = (⟨false, false, none⟩, store) := by
  simp [insertTransaction, h1, h2]

theorem insertTransaction_ok (fail : Transaction → Bool)
    (store : List Transaction) (t : Transaction)
    (h1 : isDuplicate store t.id = false) (h2 : fail t = false) :
    insertTransaction fail store t = (⟨true, false, some t⟩, store ++ [t]) := by
  simp [insertTransaction, h1, h2]

theorem mem_insertTransaction (fail : Transaction → Bool)
    (store : List Transaction) (t r : Transaction) (h : r ∈ store) :
    r ∈ (insertTransaction fail store t).2 := by
  unfold insertTransaction
  split
  · exact h
  · split
    · exact h
    · exact List.mem_append_left _ h

theorem insertTransactions_cons_dup (fail : Transaction → Bool)
    (store : List Transaction) (t : Transaction) (ts : List Transaction)
    (hd : isDuplicate store t.id = true) :
    insertTransactions fail store (t :: ts)
      = ({ (insertTransactions fail store ts).1 with
            duplicates := (insertTransactions fail store ts).1.duplicates + 1 },
         (insertTransactions fail store ts).2) := by
  simp only [insertTransactions]
  rw [insertTransaction_dup fail store t hd]
  simp

theorem insertTransactions_cons_err (fail : Transaction → Bool)
    (store : List Transaction) (t : Transaction) (ts : List Transaction)
    (h1 : isDuplicate store t.id = false) (h2 : fail t = true) :
    insertTransactions fail store (t :: ts)
      = ({ (insertTransactions fail store ts).1 with
            errors := (insertTransactions fail store ts).1.errors + 1 },
         (insertTransactions fail store ts).2) := by
  simp only [insertTransactions]
  rw [insertTransaction_err fail store t h1 h2]
  simp

theorem insertTransactions_cons_ok (fail : Transaction → Bool)
    (store : List Transaction) (t : Transaction) (ts : List Transaction)
    (h1 : isDuplicate store t.id = false) (h2 : fail t = false) :
    insertTransactions fail store (t :: ts)
      = ({ (insertTransactions fail (store ++ [t]) ts).1 with
            inserted := (insertTransactions fail (store ++ [t]) ts).1.inserted + 1
            transactions :=
              t :: (insertTransactions fail (store ++ [t]) ts).1.transactions },
         (insertTransactions fail (store ++ [t]) ts).2) := by
  simp only [insertTransactions]
  rw [insertTransaction_ok fail store t h1 h2]
  simp

theorem insertTransactions_store_mono (fail : Transaction → Bool) :
    ∀ (ts store : List Transaction) (r : Transaction), r ∈ store →
      r ∈ (insertTransactions fail store ts).2
  | [], _, _, h => h
  | t :: ts, store, r, h => by
    by_cases hd : isDuplicate store t.id = true
    · rw [insertTransactions_cons_dup fail store t ts hd]
      exact insertTransactions_store_mono fail ts store r h
    · rw [Bool.not_eq_true] at hd
      by_cases hf : fail t = true
      · rw [insertTransactions_cons_err fail store t ts hd hf]
        exact insertTransactions_store_mono fail ts store r h
      · rw [Bool.not_eq_true] at hf
        rw [insertTransactions_cons_ok fail store t ts hd hf]
        exact insertTransactions_store_mono fail ts (store ++ [t]) r
          (List.mem_append_left _ h)

theorem isDuplicate_mono (fail : Transaction → Bool)
    (ts store : List Transaction) (i : String)
    (h : isDuplicate store i = true) :
    isDuplicate (insertTransactions fail store ts).2 i = true := by
  rcases (isDuplicate_iff store i).mp h with ⟨r, hr, hid⟩
  exact (isDuplicate_iff _ i).mpr
    ⟨r, insertTransactions_store_mono fail ts store r hr, hid⟩

theorem batch_counters_general (fail : Transaction → Bool) :
    ∀ (ts store : List Transaction),
      (insertTransactions fail store ts).1.inserted
        + (insertTransactions fail store ts).1.duplicates
        + (insertTransactions fail store ts).1.errors = ts.length
      ∧ (insertTransactions fail store ts).1.transactions.length
        = (insertTransactions fail store ts).1.inserted
  | [], store => by simp [insertTransactions]
  | t :: ts, store => by
    by_cases hd : isDuplicate store t.id = true
    · have ih := batch_counters_general fail ts store
      rw [insertTransactions_cons_dup fail store t ts hd]
      constructor
      · simp only [List.length_cons]; omega
      · exact ih.2
    · rw [Bool.not_eq_true] at hd
      by_cases hf : fail t = true
      · have ih := batch_counters_general fail ts store
        rw [insertTransactions_cons_err fail store t ts hd hf]
        constructor
        · simp only [List.length_cons]; omega
        · exact ih.2
      · rw [Bool.not_eq_true] at hf
        have ih := batch_counters_general fail ts (store ++ [t])
        rw [insertTransactions_cons_ok fail store t ts hd hf]
        constructor
        · simp only [List.length_cons]; omega
        · simp only [List.length_cons]; omega

theorem countP_add_countP_not {α : Type} (p : α → Bool) :
    ∀ l : List α, l.countP p + l.countP (fun a => !p a) = l.length
  | [] => rfl
  | a :: l => by
    by_cases h : p a = true
    · simp [List.countP_cons, h, ← countP_add_countP_not p l]
      omega
    · rw [Bool.not_eq_true] at h
      simp [List.countP_cons, h, ← countP_add_countP_not p l]
      omega

theorem insertTransactions_all_dup (fail : Transaction → Bool) :
    ∀ (ts store : List Transaction),
      (∀ t ∈ ts, isDuplicate store t.id = true) →
      insertTransactions fail store ts = (⟨0, ts.length, 0, []⟩, store)
  | [], store, _ => by simp [insertTransactions]
  | t :: ts, store, h => by
    rw [insertTransactions_cons_dup fail store t ts (h t (by simp)),
      insertTransactions_all_dup fail ts store (fun x hx => h x (by simp [hx]))]
    simp

theorem full_success_ids (fail : Transaction → Bool) :
    ∀ (ts store : List Transaction),
      (insertTransactions fail store ts).1.inserted = ts.length →
      ∀ t ∈ ts, isDuplicate (insertTransactions fail store ts).2 t.id = true
  | [], _, _, _, ht => by cases ht
  | t :: ts, store, hfull, t', ht' => by
    have hcnt := (batch_counters_general fail ts store).1
    by_cases hd : isDuplicate store t.id = true
    · rw [insertTransactions_cons_dup fail store t ts hd] at hfull
      exfalso
      simp only [List.length_cons] at hfull
      omega
    · rw [Bool.not_eq_true] at hd
      by_cases hf : fail t = true
      · rw [insertTransactions_cons_err fail store t ts hd hf] at hfull
        exfalso
        simp only [List.length_cons] at hfull
        omega
      · rw [Bool.not_eq_true] at hf
        rw [insertTransactions_cons_ok fail store t ts hd hf] at hfull ⊢
        have hrest : (insertTransactions fail (store ++ [t]) ts).1.inserted
            = ts.length := by
          simp only [List.length_cons] at hfull
          omega
        rcases List.mem_cons.mp ht' with rfl | hmem
        · exact isDuplicate_mono fail ts _ t'.id
            ((isDuplicate_iff _ _).mpr ⟨t', by simp, rfl⟩)
        · exact full_success_ids fail ts (store ++ [t]) hrest t' hmem

theorem batch_fresh_counts (fail : Transaction → Bool) :
    ∀ (ts store : List Transaction),
      (∀ t ∈ ts, isDuplicate store t.id = false) →
      (ts.map Transaction.id).Nodup →
      (insertTransactions fail store ts).1.errors
          = ts.countP (fun t => fail t)
      ∧ (insertTransactions fail store ts).1.inserted
          = ts.countP (fun t => !fail t)
      ∧ ∀ t ∈ ts, fail t = false → t ∈ (insertTransactions fail store ts).2
  | [], store, _, _ => by simp [insertTransactions]
  | t :: ts, store, hfresh, hnodup => by
    have hd : isDuplicate store t.id = false := hfresh t (by simp)
    rw [List.map_cons] at hnodup
    have hnd := List.nodup_cons.mp hnodup
    by_cases hf : fail t = true
    · have ih := batch_fresh_counts fail ts store
        (fun x hx => hfresh x (by simp [hx])) hnd.2
      rw [insertTransactions_cons_err fail store t ts hd hf]
      refine ⟨?_, ?_, ?_⟩
      · simp [List.countP_cons, hf, ih.1]
      · simp [List.countP_cons, hf, ih.2.1]
      · intro x hx hfx
        rcases List.mem_cons.mp hx with rfl | hx'
        · rw [hf] at hfx; cases hfx
        · exact ih.2.2 x hx' hfx
    · rw [Bool.not_eq_true] at hf
      have hfresh' : ∀ x ∈ ts, isDuplicate (store ++ [t]) x.id = false := by
        intro x hx
        have h1 : isDuplicate store x.id = false := hfresh x (by simp [hx])
        have h2 : ¬t.id = x.id := by
          intro e
          exact hnd.1 (e ▸ List.mem_map_of_mem Transaction.id hx)
        simp [isDuplicate, List.any_append] at h1 ⊢
        exact ⟨h1, h2⟩
      have ih := batch_fresh_counts fail ts (store ++ [t]) hfresh' hnd.2
      rw [insertTransactions_cons_ok fail store t ts hd hf]
      refine ⟨?_, ?_, ?_⟩
      · simp [List.countP_cons, hf, ih.1]
      · simp [List.countP_cons, hf, ih.2.1]
      · intro x hx hfx
        rcases List.mem_cons.mp hx with rfl | hx'
        · exact insertTransactions_store_mono fail ts _ x (by simp)
        · exact ih.2.2 x hx' hfx

theorem txMatches_userId (q : TxQuery) (t : Transaction)
    (h : txMatches q t = true) : t.userId = q.userId := by
  simp only [txMatches, Bool.and_eq_true, decide_eq_true_eq] at h
  exact h.1.1.1.1.1.1

theorem mem_gtbu_matches (store : List Transaction) (u : String)
    (o : QueryOptions) (t : Transaction)
    (h : t ∈ (getTransactionsByUser store u o).data) :
    txMatches (buildQuery u o) t = true := by
  simp only [getTransactionsByUser] at h
  have h2 := List.mem_of_mem_take h
  have h3 := List.mem_of_mem_drop h2
  simp only [sortTxs, List.mem_insertionSort] at h3
  exact (List.mem_filter.mp h3).2

theorem buildQuery_userId (u : String) (o : QueryOptions) :
    (buildQuery u o).userId = u := rfl

theorem gtbu_total_eq (store : List Transaction) (u : String)
    (o : QueryOptions) :
    (getTransactionsByUser store u o).pagination.total
      = (store.filter (fun t => txMatches (buildQuery u o) t)).length := rfl

theorem gtbu_hasMore_eq (store : List Transaction) (u : String)
    (o : QueryOptions) :
    (getTransactionsByUser store u o).pagination.hasMore
      = decide ((getTransactionsByUser store u o).pagination.skip
          + ((getTransactionsByUser store u o).data.length : Int)
          < ((getTransactionsByUser store u o).pagination.total : Int)) := rfl

theorem statsAccum_debit_stable :
    ∀ (rows : List (TxType × ℚ × Nat)) (acc : Overview),
      (∀ r ∈ rows, r.1 ≠ TxType.Debit) →
      (statsAccum acc rows).totalDebit = acc.totalDebit
      ∧ (statsAccum acc rows).debitCount = acc.debitCount
  | [], _, _ => ⟨rfl, rfl⟩
  | (ty, total, cnt) :: rest, acc, h => by
    have hty : ty = TxType.Credit := by
      cases ty
      · rfl
      · exact absurd rfl (h (TxType.Debit, total, cnt) (by simp))
    subst hty
    simp only [statsAccum, if_pos]
    exact statsAccum_debit_stable rest _ (fun r hr => h r (by simp [hr]))

theorem statsAccum_credit_stable :
    ∀ (rows : List (TxType × ℚ × Nat)) (acc : Overview),
      (∀ r ∈ rows, r.1 ≠ TxType.Credit) →
      (statsAccum acc rows).totalCredit = acc.totalCredit
      ∧ (statsAccum acc rows).creditCount = acc.creditCount
  | [], _, _ => ⟨rfl, rfl⟩
  | (ty, total, cnt) :: rest, acc, h => by
    have hty : ty = TxType.Debit := by
      cases ty
      · exact absurd rfl (h (TxType.Credit, total, cnt) (by simp))
      · rfl
    subst hty
    simp only [statsAccum]
    rw [if_neg (by simp)]
    exact statsAccum_credit_stable rest _ (fun r hr => h r (by simp [hr]))

theorem statsAccum_debit_set :
    ∀ (rows : List (TxType × ℚ × Nat)) (acc : Overview) (s : ℚ) (c : Nat),
      (rows.map Prod.fst).Nodup →
      (TxType.Debit, s, c) ∈ rows →
      (statsAccum acc rows).totalDebit = s
      ∧ (statsAccum acc rows).debitCount = c
  | [], _, _, _, _, hmem => by cases hmem
  | (ty, total, cnt) :: rest, acc, s, c, hnd, hmem => by
    rw [List.map_cons] at hnd
    have hnd' := List.nodup_cons.mp hnd
    rcases List.mem_cons.mp hmem with heq | hmem'
    · have hty : ty = TxType.Debit := congrArg Prod.fst heq.symm
      subst hty
      have hs : total = s := (congrArg (fun p => p.2.1) heq).symm
      have hc : cnt = c := (congrArg (fun p => p.2.2) heq).symm
      subst hs; subst hc
      have hnodeb : ∀ r ∈ rest, r.1 ≠ TxType.Debit := by
        intro r hr e
        have hm : r.1 ∈ rest.map Prod.fst := List.mem_map_of_mem Prod.fst hr
        rw [e] at hm
        exact hnd'.1 hm
      simp only [statsAccum]
      rw [if_neg (by simp)]
      exact statsAccum_debit_stable rest _ hnodeb
    · have hty : ty ≠ TxType.Debit := by
        intro e
        have hm : TxType.Debit ∈ rest.map Prod.fst :=
          List.mem_map_of_mem Prod.fst hmem'
        have h1 := hnd'.1
        rw [e] at h1
        exact h1 hm
      cases ty
      · simp only [statsAccum, if_pos]
        exact statsAccum_debit_set rest _ s c hnd'.2 hmem'
      · exact absurd rfl hty

theorem statsAccum_credit_set :
    ∀ (rows : List (TxType × ℚ × Nat)) (acc : Overview) (s : ℚ) (c : Nat),
      (rows.map Prod.fst).Nodup →
      (TxType.Credit, s, c) ∈ rows →
      (statsAccum acc rows).totalCredit = s
      ∧ (statsAccum acc rows).creditCount = c
  | [], _, _, _, _, hmem => by cases hmem
  | (ty, total, cnt) :: rest, acc, s, c, hnd, hmem => by
    rw [List.map_cons] at hnd
    have hnd' := List.nodup_cons.mp hnd
    rcases List.mem_cons.mp hmem with heq | hmem'
    · have hty : ty = TxType.Credit := congrArg Prod.fst heq.symm
      subst hty
      have hs : total = s := (congrArg (fun p => p.2.1) heq).symm
      have hc : cnt = c := (congrArg (fun p => p.2.2) heq).symm
      subst hs; subst hc
      have hnocred : ∀ r ∈ rest, r.1 ≠ TxType.Credit := by
        intro r hr e
        have hm : r.1 ∈ rest.map Prod.fst := List.mem_map_of_mem Prod.fst hr
        rw [e] at hm
        exact hnd'.1 hm
      simp only [statsAccum, if_pos]
      exact statsAccum_credit_stable rest _ hnocred
    · have hty : ty ≠ TxType.Credit := by
        intro e
        have hm : TxType.Credit ∈ rest.map Prod.fst :=
          List.mem_map_of_mem Prod.fst hmem'
        have h1 := hnd'.1
        rw [e] at h1
        exact h1 hm
      cases ty
      · exact absurd rfl hty
      · simp only [statsAccum]
        rw [if_neg (by simp)]
        exact statsAccum_credit_set rest _ s c hnd'.2 hmem'

theorem typeRows_keys (l : List Transaction) :
    (typeRows l).map Prod.fst = (l.map (fun t => t.txType)).dedup := by
  simp [typeRows, List.map_map, Function.comp_def]

theorem overview_debit (l : List Transaction) :
    (overviewOfRows (typeRows l)).totalDebit
      = ((l.filter (fun t => decide (t.txType = TxType.Debit))).map
          (fun t => t.amount)).sum
    ∧ (overviewOfRows (typeRows l)).debitCount
      = (l.filter (fun t => decide (t.txType = TxType.Debit))).length := by
  have hnd : ((typeRows l).map Prod.fst).Nodup := by
    rw [typeRows_keys]
    exact List.nodup_dedup _
  by_cases hmem : TxType.Debit ∈ (l.map (fun t => t.txType)).dedup
  · exact statsAccum_debit_set (typeRows l) _ _ _ hnd
      (List.mem_map_of_mem _ hmem)
  · have hnodeb : ∀ r ∈ typeRows l, r.1 ≠ TxType.Debit := by
      intro r hr e
      have hm : r.1 ∈ (typeRows l).map Prod.fst := List.mem_map_of_mem _ hr
      rw [typeRows_keys, e] at hm
      exact hmem hm
    have hstable := statsAccum_debit_stable (typeRows l) ⟨0, 0, 0, 0, 0⟩ hnodeb
    have hfil : l.filter (fun t => decide (t.txType = TxType.Debit)) = [] := by
      rw [List.filter_eq_nil_iff]
      intro t ht e
      rw [decide_eq_true_eq] at e
      exact hmem (List.mem_dedup.mpr (e ▸ List.mem_map_of_mem _ ht))
    rw [hfil]
    exact ⟨hstable.1.trans rfl, hstable.2.trans rfl⟩

theorem overview_credit (l : List Transaction) :
    (overviewOfRows (typeRows l)).totalCredit
      = ((l.filter (fun t => decide (t.txType = TxType.Credit))).map
          (fun t => t.amount)).sum
    ∧ (overviewOfRows (typeRows l)).creditCount
      = (l.filter (fun t => decide (t.txType = TxType.Credit))).length := by
  have hnd : ((typeRows l).map Prod.fst).Nodup := by
    rw [typeRows_keys]
    exact List.nodup_dedup _
  by_cases hmem : TxType.Credit ∈ (l.map (fun t => t.txType)).dedup
  · exact statsAccum_credit_set (typeRows l) _ _ _ hnd
      (List.mem_map_of_mem _ hmem)
  · have hnocred : ∀ r ∈ typeRows l, r.1 ≠ TxType.Credit := by
      intro r hr e
      have hm : r.1 ∈ (typeRows l).map Prod.fst := List.mem_map_of_mem _ hr
      rw [typeRows_keys, e] at hm
      exact hmem hm
    have hstable := statsAccum_credit_stable (typeRows l) ⟨0, 0, 0, 0, 0⟩ hnocred
    have hfil : l.filter (fun t => decide (t.txType = TxType.Credit)) = [] := by
      rw [List.filter_eq_nil_iff]
      intro t ht e
      rw [decide_eq_true_eq] at e
      exact hmem (List.mem_dedup.mpr (e ▸ List.mem_map_of_mem _ ht))
    rw [hfil]
    exact ⟨hstable.1.trans rfl, hstable.2.trans rfl⟩

theorem overview_net (rows : List (TxType × ℚ × Nat)) :
    (overviewOfRows rows).netAmount
      = (overviewOfRows rows).totalCredit - (overviewOfRows rows).totalDebit :=
  rfl

theorem sum_ite_eq_sum_filter (l : List Transaction) (ty : TxType) :
    (l.map (fun t => if t.txType = ty then t.amount else 0)).sum
      = ((l.filter (fun t => decide (t.txType = ty))).map
          (fun t => t.amount)).sum := by
  induction l with
  | nil => rfl
  | cons a l ih =>
    by_cases h : a.txType = ty
    · simp [List.filter_cons, h, ih]
    · simp [List.filter_cons, h, ih]

theorem catTypeStage_sum (l : List Transaction) (ty : TxType) :
    ((catTypeStage l).map (fun r => if r.txType = ty then r.total else 0)).sum
      = (l.map (fun t => if t.txType = ty then t.amount else 0)).sum := by
  rw [catTypeStage, List.map_map]
  have hstep : ∀ k ∈ (l.map (fun t => (t.category, t.txType))).dedup,
      (if k.2 = ty then
        ((l.filter (fun t =>
          decide ((t.category, t.txType) = k))).map (fun t => t.amount)).sum
       else 0)
        = ((l.filter (fun t =>
            decide ((fun t => (t.category, t.txType)) t = k))).map
            (fun t => if t.txType = ty then t.amount else 0)).sum := by
    intro k _
    by_cases h : k.2 = ty
    · rw [if_pos h]
      refine congrArg List.sum (List.map_congr_left ?_).symm
      intro t ht
      have hk := List.of_mem_filter ht
      rw [decide_eq_true_eq] at hk
      have : t.txType = ty := by rw [← h, ← hk]
      rw [if_pos this]
    · rw [if_neg h]
      have hz : ∀ t ∈ l.filter (fun t =>
          decide ((fun t => (t.category, t.txType)) t = k)),
          (if t.txType = ty then t.amount else 0) = (fun _ => (0 : ℚ)) t := by
        intro t ht
        have hk := List.of_mem_filter ht
        rw [decide_eq_true_eq] at hk
        have : t.txType ≠ ty := by rw [← hk] at h; exact h
        rw [if_neg this]
      rw [List.map_congr_left hz, sum_map_zero_fun]
  rw [← sum_fiberwise (fun t => (t.category, t.txType))
    (fun t => if t.txType = ty then t.amount else 0) l
    ((l.map (fun t => (t.category, t.txType))).dedup)
    (List.nodup_dedup _)
    (fun t ht => List.mem_dedup.mpr (List.mem_map_of_mem _ ht))]
  exact congrArg List.sum (List.map_congr_left (fun k hk => hstep k hk))

theorem catStage_debit_sum (rows : List CatTypeRow) :
    ((catStage rows).map (fun r => r.debit)).sum
      = (rows.map
          (fun r => if r.txType = TxType.Debit then r.total else 0)).sum := by
  rw [catStage, List.map_map]
  exact sum_fiberwise (fun r => r.category)
    (fun r => if r.txType = TxType.Debit then r.total else 0) rows
    ((rows.map (fun r => r.category)).dedup)
    (List.nodup_dedup _)
    (fun r hr => List.mem_dedup.mpr (List.mem_map_of_mem _ hr))

theorem catStage_credit_sum (rows : List CatTypeRow) :
    ((catStage rows).map (fun r => r.credit)).sum
      = (rows.map
          (fun r => if r.txType = TxType.Credit then r.total else 0)).sum := by
  rw [catStage, List.map_map]
  exact sum_fiberwise (fun r => r.category)
    (fun r => if r.txType = TxType.Credit then r.total else 0) rows
    ((rows.map (fun r => r.category)).dedup)
    (List.nodup_dedup _)
    (fun r hr => List.mem_dedup.mpr (List.mem_map_of_mem _ hr))

theorem categories_debit_total (l : List Transaction) :
    ((categoryBreakdown l).map (fun r => r.debit)).sum
      = ((l.filter (fun t => decide (t.txType = TxType.Debit))).map
          (fun t => t.amount)).sum := by
  have hperm := List.perm_insertionSort
    (fun a b => b.debit ≤ a.debit) (catStage (catTypeStage l))
  calc ((categoryBreakdown l).map (fun r => r.debit)).sum
      = ((catStage (catTypeStage l)).map (fun r => r.debit)).sum :=
        (hperm.map _).sum_eq
    _ = ((catTypeStage l).map
          (fun r => if r.txType = TxType.Debit then r.total else 0)).sum :=
        catStage_debit_sum _
    _ = (l.map (fun t =>
          if t.txType = TxType.Debit then t.amount else 0)).sum :=
        catTypeStage_sum l _
    _ = ((l.filter (fun t => decide (t.txType = TxType.Debit))).map
          (fun t => t.amount)).sum := sum_ite_eq_sum_filter l _

theorem categories_credit_total (l : List Transaction) :
    ((categoryBreakdown l).map (fun r => r.credit)).sum
      = ((l.filter (fun t => decide (t.txType = TxType.Credit))).map
          (fun t => t.amount)).sum := by
  have hperm := List.perm_insertionSort
    (fun a b => b.debit ≤ a.debit) (catStage (catTypeStage l))
  calc ((categoryBreakdown l).map (fun r => r.credit)).sum
      = ((catStage (catTypeStage l)).map (fun r => r.credit)).sum :=
        (hperm.map _).sum_eq
    _ = ((catTypeStage l).map
          (fun r => if r.txType = TxType.Credit then r.total else 0)).sum :=
        catStage_credit_sum _
    _ = (l.map (fun t =>
          if t.txType = TxType.Credit then t.amount else 0)).sum :=
        catTypeStage_sum l _
    _ = ((l.filter (fun t => decide (t.txType = TxType.Credit))).map
          (fun t => t.amount)).sum := sum_ite_eq_sum_filter l _

/-- C1: user isolation — every record returned by `getTransactionsByUser`
(and by the month and category queries that delegate to it), under any
combination of optional filters, carries the queried `userId`; the `userId`
clause is always part of the query predicate. -/
theorem claim_user_isolation (store : List Transaction) (u : String)
    (o : QueryOptions) (y m : Int) (c : String) :
    (∀ t ∈ (getTransactionsByUser store u o).data, t.userId = u)
    ∧ (∀ t ∈ (getTransactionsByMonth store u y m).data, t.userId = u)
    ∧ (∀ t ∈ (getTransactionsByCategory store u c o).data, t.userId = u) := by
  refine ⟨?_, ?_, ?_⟩
  · intro t ht
    exact txMatches_userId _ t (mem_gtbu_matches store u o t ht)
  · intro t ht
    exact txMatches_userId _ t (mem_gtbu_matches store u _ t ht)
  · intro t ht
    exact txMatches_userId _ t (mem_gtbu_matches store u _ t ht)

/-- Witness for C1: a concrete record returned by a concrete query carries
the queried user id. -/
theorem claim_user_isolation_witness :
    (demoTxA ∈ (getTransactionsByUser [demoTxA, demoTxB] "u1" {}).data)
    ∧ demoTxA.userId = "u1" :=
  ⟨by decide,
   (claim_user_isolation [demoTxA, demoTxB] "u1" {} 2024 10 "Food").1
     demoTxA (by decide)⟩

/-- C2: duplicate insert is a no-op — for two records with equal id inserted
in sequence into a store not yet containing that id, the first insert
succeeds, the second is reported as a duplicate (not an error), does not
mutate the store, and exactly one record with that id is stored. -/
theorem claim_duplicate_noop (fail : Transaction → Bool)
    (r1 r2 : Transaction) (store : List Transaction)
    (hid : r1.id = r2.id)
    (hfresh : isDuplicate store r1.id = false)
    (hf : fail r1 = false) :
    (insertTransaction fail store r1).1.success = true
    ∧ (insertTransaction fail
        (insertTransaction fail store r1).2 r2).1.duplicate = true
    ∧ (insertTransaction fail
        (insertTransaction fail store r1).2 r2).1.success = false
    ∧ (insertTransaction fail (insertTransaction fail store r1).2 r2).2
        = (insertTransaction fail store r1).2
    ∧ ((insertTransaction fail
        (insertTransaction fail store r1).2 r2).2.filter
          (fun r => decide (r.id = r1.id))).length = 1 := by
  have hnone : store.filter (fun r => decide (r.id = r1.id)) = [] := by
    rw [List.filter_eq_nil_iff]
    intro r hr e
    rw [decide_eq_true_eq] at e
    have : isDuplicate store r1.id = true :=
      (isDuplicate_iff store r1.id).mpr ⟨r, hr, e⟩
    rw [hfresh] at this
    cases this
  rw [insertTransaction_ok fail store r1 hfresh hf]
  have hdup2 : isDuplicate (store ++ [r1]) r2.id = true :=
    (isDuplicate_iff _ _).mpr ⟨r1, by simp, hid⟩
  rw [insertTransaction_dup fail _ r2 hdup2]
  refine ⟨rfl, rfl, rfl, rfl, ?_⟩
  simp [List.filter_append, hnone]

/-- Witness for C2 at two concrete records sharing the id a. -/
theorem claim_duplicate_noop_witness :
    demoTxA.id = demoTxDup.id
    ∧ ((insertTransaction noFailure
        (insertTransaction noFailure [] demoTxA).2 demoTxDup).2.filter
          (fun r => decide (r.id = demoTxA.id))).length = 1 :=
  ⟨by decide,
   (claim_duplicate_noop noFailure demoTxA demoTxDup []
     (by decide) (by decide) (by decide)).2.2.2.2⟩

/-- C3: batch idempotence — after a fully successful run of
`insertTransactions` on a batch, re-running it on the same batch yields
`inserted = 0`, `duplicates = batch length`, `errors = 0`, and leaves the
store unchanged. -/
theorem claim_batch_idempotent (fail : Transaction → Bool)
    (store ts : List Transaction)
    (h : (insertTransactions fail store ts).1.inserted = ts.length) :
    (insertTransactions fail
        (insertTransactions fail store ts).2 ts).1.inserted = 0
    ∧ (insertTransactions fail
        (insertTransactions fail store ts).2 ts).1.duplicates = ts.length
    ∧ (insertTransactions fail
        (insertTransactions fail store ts).2 ts).1.errors = 0
    ∧ (insertTransactions fail (insertTransactions fail store ts).2 ts).2
        = (insertTransactions fail store ts).2 := by
  have hids := full_success_ids fail ts store h
  rw [insertTransactions_all_dup fail ts (insertTransactions fail store ts).2
    hids]
  exact ⟨rfl, rfl, rfl, rfl⟩

/-- Witness for C3: a concrete two-record batch fully succeeds, and the rerun
reports two duplicates. -/
theorem claim_batch_idempotent_witness :
    (insertTransactions noFailure [] [demoTxA, demoTxB]).1.inserted = 2
    ∧ (insertTransactions noFailure
        (insertTransactions noFailure [] [demoTxA, demoTxB]).2
        [demoTxA, demoTxB]).1.duplicates = 2 :=
  ⟨by decide,
   (claim_batch_idempotent noFailure [] [demoTxA, demoTxB] (by decide)).2.1⟩

/-- C4: partial-failure isolation — over a batch of fresh records with
pairwise distinct ids of which exactly one fails to persist, the batch
reports `errors = 1` and `inserted = length - 1`, and every record that did
not fail is stored afterwards; no per-record failure escapes the batch. -/
theorem claim_partial_failure (fail : Transaction → Bool)
    (store ts : List Transaction)
    (hfresh : ∀ t ∈ ts, isDuplicate store t.id = false)
    (hnodup : (ts.map Transaction.id).Nodup)
    (hone : ts.countP (fun t => fail t) = 1) :
    (insertTransactions fail store ts).1.errors = 1
    ∧ (insertTransactions fail store ts).1.inserted = ts.length - 1
    ∧ ∀ t ∈ ts, fail t = false →
        t ∈ (insertTransactions fail store ts).2 := by
  have h := batch_fresh_counts fail ts store hfresh hnodup
  have hsum := countP_add_countP_not (fun t => fail t) ts
  refine ⟨by rw [h.1, hone], ?_, h.2.2⟩
  rw [h.2.1]
  omega

/-- Witness for C4: a concrete three-record batch in which exactly the
middle record fails to persist yields one error and two inserts. -/
theorem claim_partial_failure_witness :
    ([demoTxA, demoTxB, demoTxC].countP (fun t => demoFailOnB t) = 1)
    ∧ (insertTransactions demoFailOnB []
        [demoTxA, demoTxB, demoTxC]).1.errors = 1
    ∧ (insertTransactions demoFailOnB []
        [demoTxA, demoTxB, demoTxC]).1.inserted = 2 :=
  ⟨by decide,
   (claim_partial_failure demoFailOnB [] [demoTxA, demoTxB, demoTxC]
     (by decide) (by decide) (by decide)).1,
   (claim_partial_failure demoFailOnB [] [demoTxA, demoTxB, demoTxC]
     (by decide) (by decide) (by decide)).2.1⟩

/-- C9: counter conservation — every input record of `insertTransactions` is
classified into exactly one of the three counters, so they add up to the
input length, and the returned transactions list has exactly `inserted`
elements. -/
theorem claim_counter_conservation (fail : Transaction → Bool)
    (store ts : List Transaction) :
    (insertTransactions fail store ts).1.inserted
      + (insertTransactions fail store ts).1.duplicates
      + (insertTransactions fail store ts).1.errors = ts.length
    ∧ (insertTransactions fail store ts).1.transactions.length
      = (insertTransactions fail store ts).1.inserted :=
  batch_counters_general fail ts store

theorem getSummary_overview_eq (store : List Transaction) (u : String)
    (sd ed : Option JSDate) :
    (getSummary store u sd ed).overview
      = overviewOfRows (typeRows (store.filter
          (fun t => txMatches (summaryQuery u sd ed) t))) := rfl

theorem getSummary_categories_eq (store : List Transaction) (u : String)
    (sd ed : Option JSDate) :
    (getSummary store u sd ed).categories
      = categoryBreakdown (store.filter
          (fun t => txMatches (summaryQuery u sd ed) t)) := rfl

/-- C5: aggregation consistency — for every user and optional date range,
the overview debit total equals the sum of the category rows' debit fields,
likewise for credit, `netAmount = totalCredit - totalDebit`, and a type with
no matching records yields zero totals and counts rather than absence. -/
theorem claim_summary_consistency (store : List Transaction) (u : String)
    (sd ed : Option JSDate) :
    ((getSummary store u sd ed).categories.map (fun r => r.debit)).sum
        = (getSummary store u sd ed).overview.totalDebit
    ∧ ((getSummary store u sd ed).categories.map (fun r => r.credit)).sum
        = (getSummary store u sd ed).overview.totalCredit
    ∧ (getSummary store u sd ed).overview.netAmount
        = (getSummary store u sd ed).overview.totalCredit
          - (getSummary store u sd ed).overview.totalDebit
    ∧ (store.filter (fun t => txMatches (summaryQuery u sd ed) t
          && decide (t.txType = TxType.Credit)) = [] →
        (getSummary store u sd ed).overview.totalCredit = 0
        ∧ (getSummary store u sd ed).overview.creditCount = 0)
    ∧ (store.filter (fun t => txMatches (summaryQuery u sd ed) t
          && decide (t.txType = TxType.Debit)) = [] →
        (getSummary store u sd ed).overview.totalDebit = 0
        ∧ (getSummary store u sd ed).overview.debitCount = 0) := by
  refine ⟨?_, ?_, ?_, ?_, ?_⟩
  · rw [getSummary_categories_eq, getSummary_overview_eq]
    exact (categories_debit_total _).trans (overview_debit _).1.symm
  · rw [getSummary_categories_eq, getSummary_overview_eq]
    exact (categories_credit_total _).trans (overview_credit _).1.symm
  · rw [getSummary_overview_eq]
    exact overview_net _
  · intro hc
    have hfil : (store.filter
        (fun t => txMatches (summaryQuery u sd ed) t)).filter
          (fun t => decide (t.txType = TxType.Credit)) = [] := by
      rw [List.filter_filter,
        show (fun a => decide (a.txType = TxType.Credit)
            && txMatches (summaryQuery u sd ed) a)
          = (fun t => txMatches (summaryQuery u sd ed) t
            && decide (t.txType = TxType.Credit))
          from funext fun a => Bool.and_comm _ _]
      exact hc
    constructor
    · rw [getSummary_overview_eq, (overview_credit _).1, hfil]
      rfl
    · rw [getSummary_overview_eq, (overview_credit _).2, hfil]
      rfl
  · intro hd
    have hfil : (store.filter
        (fun t => txMatches (summaryQuery u sd ed) t)).filter
          (fun t => decide (t.txType = TxType.Debit)) = [] := by
      rw [List.filter_filter,
        show (fun a => decide (a.txType = TxType.Debit)
            && txMatches (summaryQuery u sd ed) a)
          = (fun t => txMatches (summaryQuery u sd ed) t
            && decide (t.txType = TxType.Debit))
          from funext fun a => Bool.and_comm _ _]
      exact hd
    constructor
    · rw [getSummary_overview_eq, (overview_debit _).1, hfil]
      rfl
    · rw [getSummary_overview_eq, (overview_debit _).2, hfil]
      rfl

/-- Witness for C5 at a concrete store whose only matching record is a
debit: the credit side of the overview is zero, and the net identity holds. -/
theorem claim_summary_consistency_witness :
    ([demoTxA].filter (fun t => txMatches (summaryQuery "u1" none none) t
        && decide (t.txType = TxType.Credit)) = [])
    ∧ (getSummary [demoTxA] "u1" none none).overview.totalCredit = 0
    ∧ (getSummary [demoTxA] "u1" none none).overview.creditCount = 0
    ∧ (getSummary [demoTxA] "u1" none none).overview.netAmount
        = (getSummary [demoTxA] "u1" none none).overview.totalCredit
          - (getSummary [demoTxA] "u1" none none).overview.totalDebit :=
  ⟨by decide,
   ((claim_summary_consistency [demoTxA] "u1" none none).2.2.2.1
     (by decide)).1,
   ((claim_summary_consistency [demoTxA] "u1" none none).2.2.2.1
     (by decide)).2,
   (claim_summary_consistency [demoTxA] "u1" none none).2.2.1⟩

/-- C6: pagination invariant — `hasMore` holds exactly when
`skip + returned count < total`; the total is the count of the records
matching the same predicate as the page and is unchanged by any `limit` and
`skip` values; omitted pagination parameters default to limit 100 and skip 0
without changing which records match. -/
theorem claim_pagination_invariant (store : List Transaction) (u : String)
    (o : QueryOptions) :
    ((getTransactionsByUser store u o).pagination.hasMore = true
      ↔ (getTransactionsByUser store u o).pagination.skip
          + ((getTransactionsByUser store u o).data.length : Int)
          < ((getTransactionsByUser store u o).pagination.total : Int))
    ∧ (∀ lv sv : Option JSVal,
        (getTransactionsByUser store u
          { o with limit := lv, skip := sv }).pagination.total
          = (getTransactionsByUser store u o).pagination.total)
    ∧ (getTransactionsByUser store u o).pagination.total
        = (store.filter (fun t => txMatches (buildQuery u o) t)).length
    ∧ (getTransactionsByUser store u
        { o with limit := none, skip := none }).pagination.limit = 100
    ∧ (getTransactionsByUser store u
        { o with limit := none, skip := none }).pagination.skip = 0
    ∧ (getTransactionsByUser store u
        { o with limit := none, skip := none }).pagination.total
        = (getTransactionsByUser store u o).pagination.total := by
  refine ⟨?_, ?_, rfl, rfl, rfl, rfl⟩
  · rw [gtbu_hasMore_eq]
    exact decide_eq_true_iff
  · intro lv sv
    rfl

/-- C7: month filter equivalence — `getTransactionsByMonth` delegates to
`getTransactionsByUser` with exactly the first and last instants of the
given calendar month as the date range, so the two calls return identical
results (same records, same order). -/
theorem claim_month_equivalence (store : List Transaction) (u : String)
    (y m : Int) (h1 : 1 ≤ m) (h2 : m ≤ 12) :
    getTransactionsByMonth store u y m
      = getTransactionsByUser store u
          { startDate := some (firstInstant y m)
            endDate := some (lastInstant y m) } := by
  have e1 : jsNewDate y (m - 1) 1 0 0 0 0 = firstInstant y m := by
    have hdiv : Int.ediv (m - 1) 12 = 0 :=
      Int.ediv_eq_zero_of_lt (by omega) (by omega)
    have hmod : Int.emod (m - 1) 12 = m - 1 :=
      Int.emod_eq_of_lt (by omega) (by omega)
    simp [jsNewDate, firstInstant, hdiv, hmod, JSDate.mk.injEq]
    omega
  have e2 : jsNewDate y m 0 23 59 59 999 = lastInstant y m := by
    by_cases hm : m = 12
    · subst hm
      have hdiv : Int.ediv 12 12 = 1 := by decide
      have hmod : Int.emod 12 12 = 0 := by decide
      have hy : y + 1 - 1 = y := by omega
      simp [jsNewDate, lastInstant, hdiv, hmod, hy, JSDate.mk.injEq]
    · have hdiv : Int.ediv m 12 = 0 :=
        Int.ediv_eq_zero_of_lt (by omega) (by omega)
      have hmod : Int.emod m 12 = m :=
        Int.emod_eq_of_lt (by omega) (by omega)
      have hm0 : m.toNat ≠ 0 := by omega
      simp [jsNewDate, lastInstant, hdiv, hmod, hm0, JSDate.mk.injEq]
  unfold getTransactionsByMonth
  rw [e1, e2]

/-- Witness for C7 at October 2024, the spec's example month. -/
theorem claim_month_equivalence_witness :
    ((1 : Int) ≤ 10 ∧ (10 : Int) ≤ 12)
    ∧ getTransactionsByMonth [demoTxA, demoTxB] "u1" 2024 10
        = getTransactionsByUser [demoTxA, demoTxB] "u1"
            { startDate := some (firstInstant 2024 10)
              endDate := some (lastInstant 2024 10) } :=
  ⟨by decide,
   claim_month_equivalence [demoTxA, demoTxB] "u1" 2024 10
     (by decide) (by decide)⟩

/-- C10: falsy option values behave as omitted — a `minAmount` or
`maxAmount` of 0 imposes no amount constraint (the whole query result is the
same as with the option absent), and a `limit` that parses to 0 or is
non-numeric is replaced by the default 100. -/
theorem claim_falsy_options (store : List Transaction) (u : String)
    (o : QueryOptions) :
    getTransactionsByUser store u { o with minAmount := some 0 }
        = getTransactionsByUser store u { o with minAmount := none }
    ∧ getTransactionsByUser store u { o with maxAmount := some 0 }
        = getTransactionsByUser store u { o with maxAmount := none }
    ∧ effLimit { o with limit := some (JSVal.num 0) } = 100
    ∧ (∀ v : JSVal, jsParseInt v = none →
        effLimit { o with limit := some v } = 100) := by
  refine ⟨?_, ?_, ?_, ?_⟩
  · have hq : buildQuery u { o with minAmount := some 0 }
        = buildQuery u { o with minAmount := none } := by
      simp [buildQuery, truthyNum]
    simp only [getTransactionsByUser, hq]
    rfl
  · have hq : buildQuery u { o with maxAmount := some 0 }
        = buildQuery u { o with maxAmount := none } := by
      simp [buildQuery, truthyNum]
    simp only [getTransactionsByUser, hq]
    rfl
  · rfl
  · intro v hv
    simp [effLimit, hv, jsOr]

/-- Witness for C10: the non-numeric limit string abc parses to NaN and the
effective limit falls back to 100. -/
theorem claim_falsy_options_witness :
    jsParseInt (JSVal.str "abc") = none
    ∧ effLimit { limit := some (JSVal.str "abc") } = 100 :=
  ⟨by decide,
   (claim_falsy_options [] "u1" {}).2.2.2 (JSVal.str "abc") (by decide)⟩
